import Mathlib

/-!
Shallow embedding of the `recipe_parsing` repository (files
`recipe_parser/quantity.py`, `recipe_parser/units.py`,
`recipe_parser/ingredients.py`) and proofs about the claims of its
specification.

Modelling conventions:
* Python strings are modelled as `List Char` (abbreviated `Str`); the
  ASCII fragments exercised here behave identically under Python's and
  Lean's case/whitespace primitives.
* Python numbers (`int`/`float`) are modelled as `ℚ`.  Every numeric
  value appearing in the claims (`0.5`, `2.5`, small integers) is exactly
  representable in binary floating point and the float operations the
  code performs on them are exact, so `ℚ` is faithful on those inputs.
* Python exceptions are modelled with `Except PyErr`; a function that
  cannot raise returns a plain value.
* General recursion is modelled with an explicit fuel parameter chosen
  large enough (`length + 1`) that it is never exhausted on the inputs
  the theorems evaluate.
-/

namespace RecipeParser

/-- Python character strings, modelled as lists of characters. -/
abbrev Str := List Char

/-- Exceptions that the embedded code can raise. `fuelExhausted` is a
modelling artifact for the fuel-based recursion; it is never produced for
the fuel bounds used below. -/
inductive PyErr where
  | valueError
  | zeroDivisionError
  | indexError
  | fuelExhausted
deriving DecidableEq

/-- Decidable equality on `Except`, used to evaluate the embedded
fallible functions on concrete inputs. -/
instance {ε α : Type} [DecidableEq ε] [DecidableEq α] :
    DecidableEq (Except ε α) := fun a b =>
  match a, b with
  | .ok x, .ok y => decidable_of_iff (x = y) (by simp)
  | .error x, .error y => decidable_of_iff (x = y) (by simp)
  | .ok _, .error _ => isFalse (by simp)
  | .error _, .ok _ => isFalse (by simp)

/-- Whitespace test, modelling Python's whitespace class for the ASCII
characters that occur in this development. -/
def isWs (c : Char) : Bool := c.isWhitespace

/-- Auxiliary for `splitWs`: accumulates the current (reversed) token. -/
def splitWsAux : Str → Str → List Str
  | [], cur => if cur = [] then [] else [cur.reverse]
  | c :: cs, cur =>
    if isWs c then
      (if cur = [] then splitWsAux cs [] else cur.reverse :: splitWsAux cs [])
    else
      splitWsAux cs (c :: cur)

/-- Python `str.split()` with no arguments: split on whitespace runs,
discarding empty tokens. -/
def splitWs (s : Str) : List Str := splitWsAux s []

/-- Python `str.strip()`: remove leading and trailing whitespace. -/
def pyStrip (s : Str) : Str :=
  ((s.dropWhile isWs).reverse.dropWhile isWs).reverse

/-- Python `str.lstrip()`: remove leading whitespace. -/
def pyLstrip (s : Str) : Str := s.dropWhile isWs

/-- Python `' '.join(pieces)`. -/
def joinSp : List Str → Str
  | [] => []
  | [t] => t
  | t :: ts => t ++ ' ' :: joinSp ts

/-- Python `str.lower()` (ASCII model, applied characterwise). -/
def lowerStr (s : Str) : Str := s.map Char.toLower

/-- Replace the last element `a` of the list by `a ++ x`; models the
Python statement `combined_pieces[-1] += x` (callers guard nonemptiness). -/
def updateLast : List Str → Str → List Str
  | [], _ => []
  | [a], x => [a ++ x]
  | a :: b :: rest, x => a :: updateLast (b :: rest) x

/-- Fraction-space repair loop of `to_number` (quantity.py lines 18-29):
walks the whitespace-split tokens front to back, gluing a token that is
exactly `/`, starts with `/`, or ends with `/` to its neighbours.  The
Python list accesses `combined_pieces[-1]` and `pieces.pop()` raise
`IndexError` when the corresponding list is empty, which the model
reproduces. -/
def repairPieces : List Str → List Str → Except PyErr (List Str)
  | [], acc => .ok acc
  | p :: rest, acc =>
    if p = ['/'] then
      match acc, rest with
      | [], _ => .error .indexError
      | _ :: _, [] => .error .indexError
      | _ :: _, q :: rest2 => repairPieces rest2 (updateLast acc (p ++ q))
    else if p.head? = some '/' then
      match acc with
      | [] => .error .indexError
      | _ :: _ => repairPieces rest (updateLast acc p)
    else if p.getLast? = some '/' then
      match rest with
      | [] => .error .indexError
      | q :: rest2 => repairPieces rest2 (acc ++ [p ++ q])
    else
      repairPieces rest (acc ++ [p])

/-!
The Batteries arithmetic on `ℚ` (`Rat.add`, `Rat.mul`, ...) is marked
irreducible, which prevents the kernel from evaluating it inside proofs.
The embedding therefore uses the following explicit formulas built on
`mkRat`, which do evaluate; each is the usual cross-multiplication
formula for exact rational arithmetic.
-/

/-- Rational addition, kernel-reducible. -/
def qAdd (a b : ℚ) : ℚ := mkRat (a.num * b.den + b.num * a.den) (a.den * b.den)

/-- Rational multiplication, kernel-reducible. -/
def qMul (a b : ℚ) : ℚ := mkRat (a.num * b.num) (a.den * b.den)

/-- Rational negation, kernel-reducible. -/
def qNeg (a : ℚ) : ℚ := mkRat (-a.num) a.den

/-- Rational division, kernel-reducible; callers only divide by nonzero
values (the embedded code raises `ZeroDivisionError` first, as Python
does). -/
def qDiv (a b : ℚ) : ℚ :=
  if b.num < 0 then mkRat (-(a.num * b.den)) (a.den * b.num.natAbs)
  else mkRat (a.num * b.den) (a.den * b.num.natAbs)

/-- Rational strict order test, kernel-reducible. -/
def qLt (a b : ℚ) : Bool := a.num * b.den < b.num * a.den

/-- Numeric value of a digit character. -/
def digitVal (c : Char) : ℚ := mkRat (c.toNat - 48 : ℕ) 1

/-- Model of `unicodedata.numeric` restricted to ASCII digits and the
common vulgar-fraction characters; every character this development
evaluates on is covered.  Characters outside the table make Python raise
`ValueError`, which callers translate to `none`/failure exactly as the
source does. -/
def numericVal (c : Char) : Option ℚ :=
  if c.isDigit then some (digitVal c)
  else if c = '¼' then some (mkRat 1 4)
  else if c = '½' then some (mkRat 1 2)
  else if c = '¾' then some (mkRat 3 4)
  else if c = '⅓' then some (mkRat 1 3)
  else if c = '⅔' then some (mkRat 2 3)
  else if c = '⅛' then some (mkRat 1 8)
  else if c = '⅜' then some (mkRat 3 8)
  else if c = '⅝' then some (mkRat 5 8)
  else if c = '⅞' then some (mkRat 7 8)
  else none

/-- Value of a digit string read in base 10. -/
def natValOfDigits (s : Str) : ℕ := s.foldl (fun a c => a * 10 + (c.toNat - 48)) 0

/-- Model of Python `float(str)` for the surrounding-whitespace, optional
sign, `digits [. digits]` forms that occur in this code base (no
exponents, underscores or infinities, none of which the parsed recipe
text produces).  `none` models `ValueError`. -/
def pyFloat (s : Str) : Option ℚ :=
  let s := pyStrip s
  let body : Str → Option ℚ := fun t =>
    let intPart := t.takeWhile Char.isDigit
    let rest := t.drop intPart.length
    match rest with
    | [] => if intPart = [] then none else some (mkRat (natValOfDigits intPart) 1)
    | '.' :: frac =>
      if frac.all Char.isDigit ∧ (intPart ≠ [] ∨ frac ≠ []) then
        some (qAdd (mkRat (natValOfDigits intPart) 1)
              (mkRat (natValOfDigits frac) (10 ^ frac.length)))
      else none
    | _ => none
  match s with
  | '+' :: t => body t
  | '-' :: t => (body t).map qNeg
  | t => body t

/-- Sum loop of `to_number` for multiple whitespace-separated tokens
(quantity.py lines 40-47), parameterized by the recursive call. -/
def sumTokensWith (f : Str → Except PyErr (Option ℚ)) :
    List Str → ℚ → Except PyErr (Option ℚ)
  | [], acc => .ok (some acc)
  | t :: ts, acc =>
    match f t with
    | .error e => .error e
    | .ok none => .ok none
    | .ok (some q) => sumTokensWith f ts (qAdd acc q)

/-- Character-accumulation loop of `to_number` (quantity.py lines 55-64),
parameterized by the recursive call: fractional values are added, values
at least 1 shift the accumulator by a factor of ten. -/
def accumCharsWith (f : Str → Except PyErr (Option ℚ)) :
    Str → ℚ → Except PyErr (Option ℚ)
  | [], acc => .ok (some acc)
  | c :: cs, acc =>
    match f [c] with
    | .error e => .error e
    | .ok none => .ok none
    | .ok (some q) =>
      accumCharsWith f cs
        (if qLt q (mkRat 1 1) then qAdd acc q else qAdd (qMul acc (mkRat 10 1)) q)

/-- Fuel-indexed embedding of `to_number` (quantity.py lines 9-64) for
string input.  The branches follow the source in order: strip, fraction
space repair, empty, single character, multiple tokens, `/` fraction,
decimal with comma removal falling back to characterwise accumulation. -/
def toNumberF : ℕ → Str → Except PyErr (Option ℚ)
  | 0, _ => .error .fuelExhausted
  | fuel + 1, s =>
    let v := pyStrip s
    match repairPieces (splitWs v) [] with
    | .error e => .error e
    | .ok cps =>
      let v := joinSp cps
      match v with
      | [] => .ok none
      | [c] =>
        match numericVal c with
        | some q => .ok (some q)
        | none => .ok none
      | _ =>
        if (splitWs v).length > 1 then
          sumTokensWith (toNumberF fuel) (splitWs v) (mkRat 0 1)
        else if v.contains '/' then
          let numer := v.takeWhile (fun c => c ≠ '/')
          let denom := v.drop (numer.length + 1)
          match pyFloat numer, pyFloat denom with
          | some a, some b =>
            if b = 0 then .error .zeroDivisionError else .ok (some (qDiv a b))
          | _, _ => .error .valueError
        else
          match pyFloat (v.filter (fun c => c ≠ ',')) with
          | some q => .ok (some q)
          | none => accumCharsWith (toNumberF fuel) v (mkRat 0 1)

/-- `to_number` on a string; the fuel `length + 1` dominates the
recursion depth, which consumes at least one character per level. -/
def to_number (s : Str) : Except PyErr (Option ℚ) := toNumberF (s.length + 1) s

/-!  Units (units.py). -/

/-- Embedding of the `Unit` class (units.py lines 7-49).  All four name
fields are optional: the parser builds units such as `Unit(value, None)`
and the `NO_UNIT` sentinel has every field empty. -/
structure Unit where
  name : Option Str
  abbreviation : Option Str
  plural_name : Option Str
  plural_abbreviation : Option Str
  other_representations : List Str
deriving DecidableEq

/-- `Unit.__iter__` (units.py lines 44-49): the unit's aliases in order
(name, abbreviation, plural name, plural abbreviation, other
representations), skipping absent fields. -/
def unitReprs (u : Unit) : List Str :=
  ([u.name, u.abbreviation, u.plural_name, u.plural_abbreviation].filterMap id)
    ++ u.other_representations

/-- Python `x in unit`, which falls back to iteration over the alias
strings since `Unit` defines `__iter__`. -/
def unitContains (u : Unit) (s : Str) : Bool := (unitReprs u).contains s

/-- A value a `Unit` can be compared against: another `Unit` or a raw
string, the two cases `Unit.__eq__` distinguishes. -/
inductive UVal where
  | unit (u : Unit)
  | str (s : Str)

/-- `Unit.__eq__` (units.py lines 23-27): against a `Unit`, every alias
of `self` must occur among the other's aliases; against anything else,
membership of the other value in `self`'s aliases. -/
def unitEq (u : Unit) : UVal → Bool
  | .unit v => (unitReprs u).all (fun r => unitContains v r)
  | .str s => unitContains u s

/-- `Unit.__bool__` (units.py lines 29-30): truthy iff the unit has at
least one alias. -/
def unitTruthy (u : Unit) : Bool := ¬ (unitReprs u).isEmpty

/-- Modelled from the spec: the `NO_UNIT` sentinel ("all fields empty")
that quantity.py imports from the units module; its definition is not
part of the sources under src/. -/
def NO_UNIT : Unit := ⟨none, none, none, none, []⟩

/-- Auxiliary for `normalizeLookup`; the flag records whether the
previous character was inside a whitespace run. -/
def normalizeAux : Str → Bool → Str
  | [], _ => []
  | c :: cs, inRun =>
    if isWs c then
      (if inRun then normalizeAux cs true else ' ' :: normalizeAux cs true)
    else c :: normalizeAux cs false

/-- `UnitsRegistry.normalize_for_lookup` on a string (units.py lines
129-137): `regex.sub(r'\s+', ' ', unit)`, collapsing every whitespace run
to a single space. -/
def normalizeLookup (s : Str) : Str := normalizeAux s false

/-- The normalized alias-to-unit pairs a single unit contributes to the
registry map (units.py line 149). -/
def unitAliasPairs (u : Unit) : List (Str × Unit) :=
  (unitReprs u).map (fun a => (normalizeLookup a, u))

/-- Registry map construction loop (units.py lines 146-161): units are
processed in registration order; aliases already owned by an earlier
unit are dropped from the current unit's contribution (the collision is
reported on stdout, a side effect outside this functional model). -/
def buildFrom (m : List (Str × Unit)) : List Unit → List (Str × Unit)
  | [] => m
  | u :: us =>
    buildFrom (m ++ (unitAliasPairs u).filter (fun p => (m.lookup p.1).isNone)) us

/-- The lazily-built `_units_map` of `UnitsRegistry`, as an association
list with first-match lookup (equivalent to dict insertion order with
collisions dropped). -/
def buildUnitsMap (units : List Unit) : List (Str × Unit) := buildFrom [] units

/-- `UnitsRegistry.__getitem__` for a string key (units.py lines
145-168): normalize the key's whitespace, then exact lookup with a
lowercase fallback. -/
def registryGetItem (units : List Unit) (item : Str) : Option Unit :=
  let m := buildUnitsMap units
  let key := normalizeLookup item
  match m.lookup key with
  | some u => some u
  | none => m.lookup (lowerStr key)

/-- The normalized alias set of a unit. -/
def normAliases (u : Unit) : List Str := (unitReprs u).map normalizeLookup

/-- Specification-side characterization of lookup: the
earliest-registered unit owning the given normalized alias. -/
def earliestOwner (units : List Unit) (key : Str) : Option Unit :=
  units.find? (fun u => (normAliases u).contains key)

/-- Unit construction helper mirroring the `Unit(...)` calls of the
static tables, converting string literals to the character-list model. -/
def U (n a p pa : Option String) (o : List String) : Unit :=
  ⟨n.map String.data, a.map String.data, p.map String.data, pa.map String.data,
   o.map String.data⟩

/-- The `_units_weights` table (units.py lines 52-58). -/
def units_weights : List Unit := [
  U (some "pound") (some "lb") (some "pounds") (some "lbs") [],
  U (some "ounce") (some "oz") (some "ounces") none [],
  U (some "gram") (some "g") (some "grams") none ["grm", "grms", "gr"],
  U (some "milligram") (some "mg") (some "milligrams") none [],
  U (some "kilogram") (some "kg") (some "kilograms") none ["kilo", "kilos"]]

/-- The `_units_volumes` table (units.py lines 60-72). -/
def units_volumes : List Unit := [
  U (some "tablespoon") (some "tbsp") (some "tablespoons") none ["T", "tbs", "tbsps", "tb"],
  U (some "teaspoon") (some "tsp") (some "teaspoons") none ["t", "tsps"],
  U (some "cup") (some "c") (some "cups") none [],
  U (some "pint") (some "pt") (some "pints") none ["p"],
  U (some "quart") (some "qt") (some "quarts") none [],
  U (some "gallon") (some "gal") (some "gallons") none [],
  U (some "fluid ounce") (some "fl oz") (some "fluid ounces") none ["fl. oz.", "oz. fl."],
  U (some "liter") (some "L") (some "liters") none ["litre", "litres", "l"],
  U (some "milliliter") (some "mL") (some "milliliters") none ["millilitre", "millilitres", "ml"],
  U (some "centiliter") (some "cL") (some "centiliters") none ["centilitre", "centilitres", "cl"],
  U (some "deciliter") (some "dL") (some "deciliters") none ["decilitre", "decilitres", "dl"]]

/-- The `_units_length` table (units.py lines 74-77). -/
def units_length : List Unit := [
  U (some "centimeter") (some "cm") (some "centimeters") none ["centimetre", "centimetres"],
  U (some "inch") (some "in") (some "inches") none []]

/-- The `_units_amounts` table (units.py lines 79-101). -/
def units_amounts : List Unit := [
  U (some "ball") none (some "balls") none [],
  U (some "block") none (some "blocks") none [],
  U (some "box") none (some "boxes") none [],
  U (some "bunch") none (some "bunches") none [],
  U (some "can") none (some "cans") none [],
  U (some "cloves") none (some "clove") none [],
  U (some "cookie") none (some "cookies") none [],
  U (some "drop") none (some "drops") none [],
  U (some "dollop") none (some "dollops") none [],
  U (some "head") none (some "heads") none [],
  U (some "loaf") none (some "loaves") none [],
  U (some "pack") none (some "packs") none [],
  U (some "package") (some "pkg") (some "packages") (some "pkgs") [],
  U (some "pie") none (some "pies") none [],
  U (some "piece") none (some "pieces") none [],
  U (some "pinch") none (some "pinches") none [],
  U (some "roll") none (some "rolls") none [],
  U (some "serving") none (some "servings") none [],
  U (some "slice") none (some "slices") none [],
  U (some "stalk") none (some "stalks") none [],
  U (some "stick") none (some "sticks") none []]

/-- `_all_units` (units.py line 118), the registry behind
`american_units`. -/
def all_units : List Unit :=
  units_weights ++ units_volumes ++ units_length ++ units_amounts

/-!  Quantities (quantity.py). -/

/-- Embedding of `QuantityUnit` (quantity.py lines 67-100).  The Python
`unit` attribute holding `None` is modelled by the all-empty `NO_UNIT`,
which has identical truthiness and containment behaviour. -/
structure QuantityUnit where
  unit : Unit
  modifier : Option Str
deriving DecidableEq

/-- `QuantityUnit.__eq__` (quantity.py lines 85-86): component
comparison, the unit component compared with `Unit`'s fuzzy equality. -/
def quantityUnitEq (a b : QuantityUnit) : Bool :=
  unitEq a.unit (.unit b.unit) && a.modifier == b.modifier

/-- Truthiness of an optional string, as Python `bool`. -/
def optStrTruthy : Option Str → Bool
  | none => false
  | some s => ¬ s.isEmpty

/-- `QuantityUnit.__bool__` (quantity.py lines 88-90): truthy if either
the unit or the modifier is present. -/
def quantityUnitTruthy (qu : QuantityUnit) : Bool :=
  unitTruthy qu.unit || optStrTruthy qu.modifier

/-- The `NO_QUANTITY_UNIT` constant (quantity.py line 103). -/
def NO_QUANTITY_UNIT : QuantityUnit := ⟨NO_UNIT, none⟩

/-- Embedding of `Quantity` (quantity.py lines 106-132); the constructor
conversion `QuantityUnit.to_quantity_unit` is applied by all call sites
modelled here, so the field holds a `QuantityUnit` directly. -/
structure Quantity where
  amount : Option ℚ
  unit : QuantityUnit
  approximate : Bool
deriving DecidableEq

/-- `Quantity.__eq__` (quantity.py lines 112-120): unequal amounts
differ; both absent amounts compare equal regardless of unit; otherwise
the units must also be equal.  The `approximate` flag is never read. -/
def quantityEq (a b : Quantity) : Bool :=
  if a.amount ≠ b.amount then false
  else if a.amount = none then true
  else quantityUnitEq a.unit b.unit

/-- `Quantity.__bool__` (quantity.py lines 122-123): Python
`bool(self.amount or self.unit)`; a numeric amount is truthy iff
nonzero. -/
def quantityTruthy (q : Quantity) : Bool :=
  (match q.amount with
   | none => false
   | some a => a.num != 0) || quantityUnitTruthy q.unit

/-- `Quantity.is_empty` (quantity.py lines 125-126). -/
def quantityIsEmpty (q : Quantity) : Bool := ! quantityTruthy q

/-- The `TotalQuantity` constructor filter (quantity.py lines 135-137):
empty quantities are dropped; the remaining list is the whole observable
state of a `TotalQuantity`. -/
def mkTotalQuantity (qs : List Quantity) : List Quantity :=
  qs.filter (fun q => ! quantityIsEmpty q)

/-- Embedding of `QuantityRange` (quantity.py lines 173-204), with both
sides as the quantity lists of their `TotalQuantity`. -/
structure QuantityRange where
  from_quantity : List Quantity
  to_quantity : List Quantity
deriving DecidableEq

/-- Embedding of `CompleteQuantity` (quantity.py lines 210-241). -/
structure CompleteQuantity where
  primary_quantity : QuantityRange
  equivalent_quantities : List QuantityRange
deriving DecidableEq

/-- `NO_COMPLETE_QUANTITY` (quantity.py line 244): empty range, no
equivalents. -/
def NO_COMPLETE_QUANTITY : CompleteQuantity := ⟨⟨[], []⟩, []⟩

/-!  Ingredient parsing (ingredients.py). -/

/-- Embedding of `Ingredient` (ingredients.py lines 10-50). -/
structure Ingredient where
  name : Str
  quantity : CompleteQuantity
  notes : Option Str
  optional : Bool
deriving DecidableEq

/-- The unit-inheritance step of
`IngredientParser.parse_quantity_range_match` (ingredients.py lines
343-348), acting on the extracted from/to quantity lists: when the from
side is nonempty, its first term's quantity-unit is falsy and the to
side is nonempty, the to side's first quantity-unit is copied onto the
from side's first term; if the to side's first amount is absent the to
side is then replaced by the empty `TotalQuantity`. -/
def rangeUnitInheritance (from_quantity to_quantity : List Quantity) :
    List Quantity × List Quantity :=
  match from_quantity, to_quantity with
  | f0 :: fs, t0 :: ts =>
    if quantityUnitTruthy f0.unit then (f0 :: fs, t0 :: ts)
    else
      let from2 := { f0 with unit := t0.unit } :: fs
      if t0.amount = none then (from2, []) else (from2, t0 :: ts)
  | f, t => (f, t)

/-- The leading-`of` strip shared by `IngredientParser.parse_match`
(ingredients.py lines 377-379) and `BasicIngredientParser.__call__`
(lines 67-68): `if name.lower().startswith('of'): name = name[2:].lstrip()`. -/
def stripLeadingOf (name : Str) : Str :=
  if (lowerStr name).take 2 = ['o', 'f'] then pyLstrip (name.drop 2) else name

/-- Python `str.find` for a single character, with `none` for the
not-found result `-1`. -/
def findChar (c : Char) : Str → Option ℕ
  | [] => none
  | d :: ds => if d = c then some 0 else (findChar c ds).map (· + 1)

/-- Python `str.rstrip(')')`: remove all trailing closing parens. -/
def rstripParens (s : Str) : Str := (s.reverse.dropWhile (· = ')')).reverse

/-- The `extract_comma` helper of
`BasicIngredientParser.extract_note_from_name` (ingredients.py lines
91-92). -/
def extractComma (text : Str) (i : ℕ) : Str × Str :=
  (pyStrip (text.take i), pyStrip (text.drop (i + 1)))

/-- The `extract_paren` helper (ingredients.py lines 94-97). -/
def extractParen (text : Str) (i : ℕ) : Str × Str :=
  (pyStrip (text.take i), pyStrip (rstripParens (text.drop (i + 1))))

/-- `BasicIngredientParser.extract_note_from_name` (ingredients.py lines
86-113): split at the earliest comma or opening paren, preferring the
paren when it comes first; an empty note becomes `none`. -/
def extract_note_from_name (name : Str) : Str × Option Str :=
  let res : Str × Option Str :=
    match findChar ',' name, findChar '(' name with
    | none, none => (name, none)
    | none, some ip => let r := extractParen name ip; (r.1, some r.2)
    | some ic, none => let r := extractComma name ic; (r.1, some r.2)
    | some ic, some ip =>
      if ip < ic then let r := extractParen name ip; (r.1, some r.2)
      else let r := extractComma name ic; (r.1, some r.2)
  match res with
  | (n, some t) => if t = [] then (n, none) else (n, some t)
  | r => r

/-- Match attempt of the default optional-marker pattern
`\s*[,(]?\s*optional\s*\)?` (ingredients.py line 54, `regex.IGNORECASE`)
at the start of `s`, returning the length of the match.  Greedy
maximal-munch is exact here: whitespace can never begin the literal
`optional`, nor can a comma or paren, so no backtracking assignment can
succeed where the maximal one fails. -/
def matchOptionalLen (s : Str) : Option ℕ :=
  let n1 := (s.takeWhile isWs).length
  let s1 := s.drop n1
  let n2 : ℕ := match s1 with
    | c :: _ => if c = ',' ∨ c = '(' then 1 else 0
    | [] => 0
  let s2 := s1.drop n2
  let n3 := (s2.takeWhile isWs).length
  let s3 := s2.drop n3
  if lowerStr (s3.take 8) = "optional".data then
    let s4 := s3.drop 8
    let n5 := (s4.takeWhile isWs).length
    let s5 := s4.drop n5
    let n6 : ℕ := match s5 with
      | ')' :: _ => 1
      | _ => 0
    some (n1 + n2 + n3 + 8 + n5 + n6)
  else none

/-- Global substitution of the optional-marker pattern with the empty
string, as `regex.sub` performs it: scan left to right, replace each
(necessarily nonempty) match and resume after it.  Any match covers the
eight characters of `optional`, so consuming `n` characters with
`n ≥ 1` preserves the fuel bound. -/
def subOptionalF : ℕ → Str → Str
  | 0, s => s
  | _ + 1, [] => []
  | fuel + 1, c :: cs =>
    match matchOptionalLen (c :: cs) with
    | some n => subOptionalF fuel (cs.drop (n - 1))
    | none => c :: subOptionalF fuel cs

/-- `BasicIngredientParser.deoptionalize_ingredient_line` with the
default pattern (ingredients.py lines 74-76). -/
def deoptionalize_ingredient_line (text : Str) : Str :=
  subOptionalF (text.length + 1) text

/-- `BasicIngredientParser.__call__` (ingredients.py lines 59-72): strip
the optional marker (recording whether anything changed), keep an empty
quantity, strip a leading `of`, split off a note, and always return an
`Ingredient`. -/
def basicIngredientCall (text : Str) : Ingredient :=
  let de := deoptionalize_ingredient_line text
  let opt : Bool := text ≠ de
  let name := stripLeadingOf de
  let r := extract_note_from_name name
  ⟨r.1, NO_COMPLETE_QUANTITY, r.2, opt⟩

/-- `strip_bullet_points` with the default pattern list
`[r'^(\s*[-*]\s*)']` (ingredients.py lines 434-463): remove one leading
run of whitespace, a dash or asterisk, and following whitespace;
otherwise return the line unchanged. -/
def strip_bullet_points (line : Str) : Str :=
  let rest := line.dropWhile isWs
  match rest with
  | c :: cs => if c = '-' ∨ c = '*' then cs.dropWhile isWs else line
  | [] => line

/-- The parser loop of `parse_ingredient_line` (ingredients.py lines
483-487): first non-`None` result wins. -/
def tryParsers (parsers : List (Str → Option Ingredient)) (l : Str) :
    Option Ingredient :=
  match parsers with
  | [] => none
  | p :: ps =>
    match p l with
    | some i => some i
    | none => tryParsers ps l

/-- `parse_ingredient_line` (ingredients.py lines 479-487) over an
explicit parser list; the three grammar-based parsers of the default
chain depend on the external regex engine and are modelled as abstract
functions. -/
def parse_ingredient_line (parsers : List (Str → Option Ingredient))
    (line : Str) : Option Ingredient :=
  tryParsers parsers (strip_bullet_points line)

/-- The amount handling of `IngredientParser.parse_quantity_match`
(ingredients.py lines 291-296): an unmatched group gives no amount, the
literal word `a` (case-insensitive) becomes `1`, anything else goes
through `to_number`. -/
def parseAmountGroup (amount : Option Str) : Except PyErr (Option ℚ) :=
  match amount with
  | none => .ok none
  | some s => if lowerStr s = ['a'] then .ok (some (mkRat 1 1)) else to_number s

/-- Concrete quantity: the from-side term extracted from `2-3 tbsp`
(amount 2, no unit). -/
def exampleFromTerm : Quantity := ⟨some (mkRat 2 1), ⟨NO_UNIT, none⟩, false⟩

/-- Concrete quantity: the to-side term extracted from `2-3 tbsp`
(amount 3, unit tablespoon). -/
def exampleToTerm : Quantity :=
  ⟨some (mkRat 3 1),
   ⟨U (some "tablespoon") (some "tbsp") (some "tablespoons") none
      ["T", "tbs", "tbsps", "tb"], none⟩, false⟩

/-- Concrete quantity: the from-side term of a dash-split `8-oz` phrase
(amount 8, no unit). -/
def exampleEightTerm : Quantity := ⟨some (mkRat 8 1), ⟨NO_UNIT, none⟩, false⟩

/-- Concrete quantity: the to-side term of a dash-split `8-oz` phrase
(no amount, unit ounce). -/
def exampleOzTerm : Quantity :=
  ⟨none, ⟨U (some "ounce") (some "oz") (some "ounces") none [], none⟩, false⟩

/-- A `Unit` as registered for pound, with all four aliases. -/
def poundFull : Unit := U (some "pound") (some "lb") (some "pounds") (some "lbs") []

/-- A `Unit` carrying only the alias `pound`. -/
def poundNameOnly : Unit := U (some "pound") none none none []

/-!  Helper lemmas. -/

/-- Default unit, making instance searches over `Unit` terminate
quickly. -/
instance : Inhabited Unit := ⟨NO_UNIT⟩

/-- Lookup distributes over list append, preferring the first list. -/
theorem lookup_append_pairs (l₁ l₂ : List (Str × Unit)) (k : Str) :
    (l₁ ++ l₂).lookup k =
      match l₁.lookup k with
      | some v => some v
      | none => l₂.lookup k := by
  induction l₁ with
  | nil => simp [List.lookup]
  | cons p l ih =>
    obtain ⟨a, v⟩ := p
    cases h : (k == a) <;> simp [List.lookup, h, ih]

/-- Lookup in a list filtered by key-freshness against a map `m`. -/
theorem lookup_filter_fresh (m l : List (Str × Unit)) (k : Str) :
    ((l.filter (fun p => (m.lookup p.1).isNone)).lookup k) =
      if (m.lookup k).isNone then l.lookup k else none := by
  induction l with
  | nil => simp [List.lookup]
  | cons p l ih =>
    obtain ⟨a, v⟩ := p
    by_cases hm : (m.lookup a).isNone
    · cases hka : (k == a)
      · simp [List.filter_cons, hm, List.lookup, hka, ih]
      · have hk : k = a := eq_of_beq hka
        subst hk
        simp [List.filter_cons, hm, List.lookup]
    · cases hka : (k == a)
      · simp [List.filter_cons, hm, List.lookup, hka, ih]
      · have hk : k = a := eq_of_beq hka
        subst hk
        simp [List.filter_cons, hm, List.lookup, ih]

/-- Lookup among the alias pairs a single unit contributes. -/
theorem lookup_unitAliasPairs (u : Unit) (k : Str) :
    ((unitAliasPairs u).lookup k) =
      if (normAliases u).contains k then some u else none := by
  unfold unitAliasPairs normAliases
  induction unitReprs u with
  | nil => simp [List.lookup]
  | cons r rs ih =>
    cases hka : (k == normalizeLookup r) with
    | false =>
      have hne : k ≠ normalizeLookup r := by
        intro h; subst h; simp at hka
      simp [List.lookup, hka, ih, hne]
    | true =>
      have hk : k = normalizeLookup r := eq_of_beq hka
      subst hk
      simp [List.lookup]

/-- The registry map built starting from `m` looks up as: `m` first,
then the earliest unit owning the normalized alias. -/
theorem buildFrom_lookup (us : List Unit) :
    ∀ (m : List (Str × Unit)) (k : Str),
      ((buildFrom m us).lookup k) =
        match m.lookup k with
        | some v => some v
        | none => earliestOwner us k := by
  induction us with
  | nil =>
    intro m k
    simp [buildFrom, earliestOwner]
    cases m.lookup k <;> rfl
  | cons u us ih =>
    intro m k
    rw [buildFrom, ih, lookup_append_pairs, lookup_filter_fresh,
        lookup_unitAliasPairs]
    cases hm : m.lookup k with
    | some v => simp [hm]
    | none =>
      simp only [hm, Option.isNone_none, if_true]
      cases hc : (normAliases u).contains k with
      | true => simp only [earliestOwner, List.find?_cons, hc]; simp
      | false => simp only [earliestOwner, List.find?_cons, hc]; simp

/-- Reflexivity of the embedded `QuantityUnit` equality. -/
theorem quantityUnitEq_refl (a : QuantityUnit) : quantityUnitEq a a = true := by
  simp [quantityUnitEq, unitEq, unitContains, List.all_eq_true]

/-- The parser loop returns the final fallback when all earlier parsers
decline. -/
theorem tryParsers_append_last (f : Str → Option Ingredient) :
    ∀ (ps : List (Str → Option Ingredient)) (l : Str),
      (∀ p ∈ ps, p l = none) → tryParsers (ps ++ [f]) l = f l := by
  intro ps
  induction ps with
  | nil =>
    intro l _
    simp only [List.nil_append]
    cases h : f l <;> simp [tryParsers, h]
  | cons p rest ih =>
    intro l h
    have hp : p l = none := h p (List.mem_cons_self p rest)
    simp only [List.cons_append, tryParsers, hp]
    exact ih l (fun q hq => h q (List.mem_cons_of_mem p hq))

/-!  Claim theorems. -/

/-- C2: `to_number` is claimed never to raise for malformed text,
including strings containing `/` with non-numeric parts or a zero
denominator; the code's fraction branch divides unguarded, so
`to_number("a/b")` raises `ValueError` and `to_number("1/0")` raises
`ZeroDivisionError`. -/
theorem to_number_raises_on_malformed_fraction :
    to_number "a/b".data = .error .valueError
    ∧ to_number "1/0".data = .error .zeroDivisionError := by
  exact ⟨by decide, by decide⟩

/-- C9: `to_number` maps `1 /2`, `1/ 2` and `1 / 2` to `0.5` through the
fraction-space repair that glues a token equal to, starting with or
ending with `/` onto its neighbour, while the genuinely separate tokens
of `2 1/2` are summed as the mixed number `2.5`. -/
theorem to_number_fraction_space_repair :
    to_number "1 /2".data = .ok (some (0.5 : ℚ))
    ∧ to_number "1/ 2".data = .ok (some (0.5 : ℚ))
    ∧ to_number "1 / 2".data = .ok (some (0.5 : ℚ))
    ∧ to_number "2 1/2".data = .ok (some (2.5 : ℚ)) := by
  have h1 : (0.5 : ℚ) = mkRat 1 2 := by norm_num
  have h2 : (2.5 : ℚ) = mkRat 5 2 := by norm_num
  rw [h1, h2]
  exact ⟨by decide, by decide, by decide, by decide⟩

/-- C4 counterexample: the claim that `u == v` holds exactly when the
alias sets intersect fails for two units sharing the alias `pound`:
their alias sets intersect, yet `Unit.__eq__` returns false because not
every alias of the left unit occurs in the right one. -/
theorem unitEq_not_intersection :
    unitEq poundFull (.unit poundNameOnly) = false
    ∧ (unitReprs poundNameOnly).any
        (fun a => (unitReprs poundFull).contains a) = true := by
  exact ⟨by decide, by decide⟩

/-- C4 amended: `Unit.__eq__` against a `Unit` is alias-set inclusion of
the left operand's aliases in the right operand's (so the claimed
intersection criterion holds only in the string case); against a string
it is membership of that string among the left operand's aliases. -/
theorem unitEq_is_alias_subset (u v : Unit) (s : Str) :
    (unitEq u (.unit v) = true ↔ ∀ a ∈ unitReprs u, a ∈ unitReprs v)
    ∧ (unitEq u (.str s) = true ↔ s ∈ unitReprs u) := by
  constructor
  · simp [unitEq, unitContains, List.all_eq_true]
  · simp [unitEq, unitContains]

/-- C5 counterexample: a `Quantity` with amount `0` and falsy unit is
empty (`bool` false, `is_empty` true) although its amount is not absent,
refuting the claimed equivalence with `amount is None`. -/
theorem quantity_zero_amount_is_empty :
    quantityIsEmpty ⟨some (mkRat 0 1), ⟨NO_UNIT, none⟩, false⟩ = true
    ∧ (⟨some (mkRat 0 1), ⟨NO_UNIT, none⟩, false⟩ : Quantity).amount ≠ none := by
  exact ⟨by decide, by decide⟩

/-- C5 amended: a `Quantity` is empty if and only if its amount is falsy
(absent or zero, Python truthiness of `self.amount`) and its unit is
falsy. -/
theorem quantity_empty_iff_falsy_amount_and_unit (q : Quantity) :
    quantityIsEmpty q = true ↔
      ((q.amount = none ∨ q.amount = some 0)
        ∧ quantityUnitTruthy q.unit = false) := by
  cases h : q.amount with
  | none => simp [quantityIsEmpty, quantityTruthy, h]
  | some a =>
    simp [quantityIsEmpty, quantityTruthy, h, Rat.num_eq_zero]

/-- C6: `Quantity.__eq__` holds exactly when both amounts are absent, or
the amounts are equal and the units are equal; the `approximate` flag
never affects the result, and two quantities differing only in
`approximate` compare equal. -/
theorem quantityEq_characterization (q1 q2 : Quantity) :
    (quantityEq q1 q2 = true ↔
      ((q1.amount = none ∧ q2.amount = none)
        ∨ (q1.amount = q2.amount ∧ quantityUnitEq q1.unit q2.unit = true)))
    ∧ (∀ b1 b2 : Bool,
        quantityEq { q1 with approximate := b1 } { q2 with approximate := b2 }
          = quantityEq q1 q2)
    ∧ (∀ b : Bool, quantityEq q1 { q1 with approximate := b } = true) := by
  refine ⟨?_, ?_, ?_⟩
  · cases h1 : q1.amount with
    | none => cases h2 : q2.amount <;> simp [quantityEq, h1, h2]
    | some a =>
      cases h2 : q2.amount with
      | none => simp [quantityEq, h1, h2]
      | some b =>
        by_cases hab : a = b
        · subst hab; simp [quantityEq, h1, h2]
        · simp [quantityEq, h1, h2, hab]
  · intro b1 b2; rfl
  · intro b
    have hu := quantityUnitEq_refl q1.unit
    cases h : q1.amount <;> simp [quantityEq, h, hu]

/-- C7: registry lookup first collapses whitespace runs in the key, then
returns the earliest-registered unit owning that normalized alias under
exact match, falling back to the lowercased key, and `none` otherwise;
first registration wins on alias collisions. -/
theorem registry_lookup_earliest_owner (units : List Unit) (item : Str) :
    registryGetItem units item =
      match earliestOwner units (normalizeLookup item) with
      | some u => some u
      | none => earliestOwner units (lowerStr (normalizeLookup item)) := by
  unfold registryGetItem buildUnitsMap
  simp only [buildFrom_lookup]
  cases h1 : earliestOwner units (normalizeLookup item) <;>
    simp [List.lookup, h1]

/-- C3: in range extraction, when the from side's first term has a falsy
unit and the to side is nonempty with a truthy unit, the to side's first
quantity-unit is copied onto the from side's first term; if the to
side's first amount is absent the to side then becomes the empty
`TotalQuantity`, and otherwise it is kept unchanged. -/
theorem range_unit_inheritance_spec (f0 t0 : Quantity) (fs ts : List Quantity)
    (hf : quantityUnitTruthy f0.unit = false)
    (ht : quantityUnitTruthy t0.unit = true) :
    (rangeUnitInheritance (f0 :: fs) (t0 :: ts)).1
        = { f0 with unit := t0.unit } :: fs
    ∧ (t0.amount = none → (rangeUnitInheritance (f0 :: fs) (t0 :: ts)).2 = [])
    ∧ (t0.amount ≠ none →
        (rangeUnitInheritance (f0 :: fs) (t0 :: ts)).2 = t0 :: ts) := by
  cases hta : t0.amount <;> simp [rangeUnitInheritance, hf, hta]

/-- C3 witness: on the `2-3 tbsp` extraction the tablespoon unit is
copied to the from term, and on the dash-split `8-oz` extraction the to
side is discarded. -/
theorem range_unit_inheritance_witness :
    (rangeUnitInheritance [exampleFromTerm] [exampleToTerm]).1
        = [{ exampleFromTerm with unit := exampleToTerm.unit }]
    ∧ (rangeUnitInheritance [exampleEightTerm] [exampleOzTerm]).2 = [] :=
  ⟨(range_unit_inheritance_spec exampleFromTerm exampleToTerm [] []
      (by decide) (by decide)).1,
   (range_unit_inheritance_spec exampleEightTerm exampleOzTerm [] []
      (by decide) (by decide)).2.1 rfl⟩

/-- C8 counterexample: the name `offal` does not begin with the word
`of` followed by a space, yet the leading-`of` strip changes it to
`fal`, refuting the claim that such names are left unchanged. -/
theorem stripLeadingOf_changes_offal :
    stripLeadingOf "offal".data = "fal".data
    ∧ (lowerStr "offal".data).take 3 ≠ "of ".data := by
  exact ⟨by decide, by decide⟩

/-- C8 amended: the strip fires on any name whose first two characters
lowercase to `o` and `f` (no following space required), removing them
together with any following whitespace; names not starting with `of`
are unchanged. -/
theorem stripLeadingOf_spec :
    (∀ (c1 c2 : Char) (rest : Str), c1.toLower = 'o' → c2.toLower = 'f' →
        stripLeadingOf (c1 :: c2 :: rest) = pyLstrip rest)
    ∧ (∀ name : Str, (lowerStr name).take 2 ≠ ['o', 'f'] →
        stripLeadingOf name = name) := by
  constructor
  · intro c1 c2 rest h1 h2
    simp [stripLeadingOf, lowerStr, h1, h2]
  · intro name h
    simp [stripLeadingOf, lowerStr] at h ⊢
    simp [h]

/-- C8 witness: `OF milk` loses its leading `of` and the following
space, while `salt` is untouched. -/
theorem stripLeadingOf_spec_witness :
    stripLeadingOf "OF milk".data = "milk".data
    ∧ stripLeadingOf "salt".data = "salt".data := by
  constructor
  · rw [show ("OF milk".data : Str) = 'O' :: 'F' :: " milk".data from rfl]
    rw [stripLeadingOf_spec.1 'O' 'F' " milk".data (by decide) (by decide)]
    decide
  · exact stripLeadingOf_spec.2 "salt".data (by decide)

/-- C10: the optional-marker removal substitutes every occurrence of the
pattern with no word-boundary check (two markers in one line are both
removed), the flag is set exactly when the text changed, and an input
containing `optional` only inside the word `optionally` has that
substring deleted with `optional = true` reported. -/
theorem optional_marker_substring_behaviour :
    deoptionalize_ingredient_line "optional x optional y".data = "xy".data
    ∧ basicIngredientCall "optionally fresh herbs".data
        = ⟨"ly fresh herbs".data, NO_COMPLETE_QUANTITY, none, true⟩
    ∧ (∀ text : Str,
        ((basicIngredientCall text).optional = true
          ↔ deoptionalize_ingredient_line text ≠ text)) := by
  refine ⟨by decide, by decide, ?_⟩
  intro text
  simp [basicIngredientCall]
  exact ne_comm

/-- C1: the claimed total robustness of `parse_ingredient_line` fails
because a matched amount group can make `to_number` raise (the
`1/0 cups sugar` line reaches `parse_quantity_match` with amount group
`1/0`, which divides by zero); the fallback half of the claim does hold:
whenever every earlier parser declines, the chain ending in the basic
parser returns the basic parser's ingredient for the bullet-stripped
line. -/
theorem parse_chain_fallback_and_amount_crash :
    parseAmountGroup (some "1/0".data) = .error .zeroDivisionError
    ∧ (∀ (earlier : List (Str → Option Ingredient)) (line : Str),
        (∀ p ∈ earlier, p (strip_bullet_points line) = none) →
        parse_ingredient_line
            (earlier ++ [fun t => some (basicIngredientCall t)]) line
          = some (basicIngredientCall (strip_bullet_points line))) := by
  constructor
  · decide
  · intro earlier line h
    unfold parse_ingredient_line
    exact tryParsers_append_last _ earlier _ h

/-- C1 witness: with no earlier parser, `salt` reaches the basic
fallback, and the crashing amount evaluation is exhibited. -/
theorem parse_chain_fallback_witness :
    parse_ingredient_line [fun t => some (basicIngredientCall t)] "salt".data
      = some (basicIngredientCall "salt".data)
    ∧ parseAmountGroup (some "1/0".data) = .error .zeroDivisionError := by
  constructor
  · have h := parse_chain_fallback_and_amount_crash.2 [] "salt".data (by simp)
    rw [show strip_bullet_points "salt".data = "salt".data from by decide] at h
    simpa using h
  · exact parse_chain_fallback_and_amount_crash.1

end RecipeParser
